import Mathlib

/-!
Shallow embedding of the Gomoku move-recommendation engine
(`Gomoku3.py` and `gtp_connection.py`) together with models of its external
board collaborators, and proofs about the embedded operations.

Conventions taken from the source: cell colours are `EMPTY = 0`, `BLACK = 1`,
`WHITE = 2` (see the docstring of `FlatMonteCarloSimulation.simulate`, which
says rollouts return 1 for Black, 2 for White and 0 for a draw).
-/

set_option autoImplicit false

deriving instance DecidableEq for Except

namespace Gomoku

/-- Modelled from the spec: `GoBoardUtil.opponent` (board_util.py is absent
from the sources).  Swaps PlayerA (1) and PlayerB (2) and leaves any other
value unchanged, so that the flip is an involution. -/
def opponent (c : Nat) : Nat :=
  if c = 1 then 2 else if c = 2 then 1 else c

/-- Modelled from the spec: the Board State collaborator (board.py is absent
from the sources).  A fixed-size square grid of cells, the player to move and
a LIFO move-history stack, per spec section 3.  A point is the index
`row * size + col`; the raw padded addressing scheme of the real board is
declared out of scope by the spec. -/
structure Board where
  size : Nat
  cells : List Nat
  current_player : Nat
  history : List Nat
  deriving DecidableEq

/-- Modelled from the spec: `cell_at` / `board.get_color`.  Points outside the
stored grid read as Empty in this model; every Line produced by the board stays
on the grid, so the default is never load-bearing. -/
def get_color (b : Board) (p : Nat) : Nat :=
  b.cells.getD p 0

/-- Modelled from the spec: the board's row enumeration (each row as an ordered
list of points). -/
def Board.rows (b : Board) : List (List Nat) :=
  (List.range b.size).map (fun r => (List.range b.size).map (fun c => r * b.size + c))

/-- Modelled from the spec: the board's column enumeration. -/
def Board.cols (b : Board) : List (List Nat) :=
  (List.range b.size).map (fun c => (List.range b.size).map (fun r => r * b.size + c))

/-- Points of the down-right diagonal starting at `(r0, c0)` on an `n` by `n`
grid. -/
def diagDR (n r0 c0 : Nat) : List Nat :=
  (List.range n).filterMap
    (fun i => if r0 + i < n ∧ c0 + i < n then some ((r0 + i) * n + (c0 + i)) else none)

/-- Points of the down-left diagonal starting at `(r0, c0)` on an `n` by `n`
grid. -/
def diagDL (n r0 c0 : Nat) : List Nat :=
  (List.range n).filterMap
    (fun i => if r0 + i < n ∧ i ≤ c0 ∧ c0 - i < n then some ((r0 + i) * n + (c0 - i)) else none)

/-- Modelled from the spec: the board's diagonal enumeration (both
directions). -/
def Board.diags (b : Board) : List (List Nat) :=
  ((List.range b.size).map (fun c => diagDR b.size 0 c))
    ++ ((List.range b.size).filterMap
        (fun r => if r = 0 then none else some (diagDR b.size r 0)))
    ++ ((List.range b.size).map (fun c => diagDL b.size 0 c))
    ++ ((List.range b.size).filterMap
        (fun r => if r = 0 then none else some (diagDL b.size r (b.size - 1))))

/-- Modelled from the spec: `board.table_rows()` used by the win scan; the same
row enumeration. -/
def Board.table_rows (b : Board) : List (List Nat) := Board.rows b

/-- Modelled from the spec: `board.table_cols()`. -/
def Board.table_cols (b : Board) : List (List Nat) := Board.cols b

/-- Modelled from the spec: `board.table_diags()`. -/
def Board.table_diags (b : Board) : List (List Nat) := Board.diags b

/-- All lines of the board, used by the terminal detector. -/
def allLines (b : Board) : List (List Nat) :=
  Board.rows b ++ Board.cols b ++ Board.diags b

/-- Does the colour sequence contain five consecutive stones of colour `p`? -/
def fiveRun (p : Nat) : List Nat → Bool
  | [] => false
  | c :: t => ((c :: t).take 5 = [p, p, p, p, p]) || fiveRun p t

/-- Modelled from the spec: `board.detect_five_in_a_row` — returns the colour
owning five contiguous stones in some row, column or diagonal, and `EMPTY = 0`
when no winner exists. -/
def detect_five_in_a_row (b : Board) : Nat :=
  if (allLines b).any (fun l => fiveRun 1 (l.map (get_color b))) then 1
  else if (allLines b).any (fun l => fiveRun 2 (l.map (get_color b))) then 2
  else 0

/-- Modelled from the spec: `board.get_empty_points()`. -/
def get_empty_points (b : Board) : List Nat :=
  (List.range (b.size * b.size)).filter (fun p => get_color b p = 0)

/-- Modelled from the spec: `board.play_move(move, color) -> bool`.  An
occupied or out-of-bounds move returns `false` and must not mutate the board;
a successful play sets the cell, records the move on the history stack and
hands the turn to the opponent. -/
def play_move (move color : Nat) (b : Board) : Bool × Board :=
  if move < b.size * b.size ∧ get_color b move = 0 then
    (true, { b with cells := b.cells.set move color,
                    current_player := opponent color,
                    history := move :: b.history })
  else (false, b)

/-- Modelled from the spec: `board.undo(move)` — reverses a play: empties the
cell, flips the player to move and pops the history stack. -/
def undo (move : Nat) (b : Board) : Board :=
  { b with cells := b.cells.set move 0,
           current_player := opponent b.current_player,
           history := b.history.tail }

/-- Modelled from the spec: `GoBoardUtil.generate_legal_moves` — every Empty
cell is legal for the player to move. -/
def generate_legal_moves (b : Board) (_color : Nat) : List Nat :=
  get_empty_points b

/-! ## The line pattern scans of `FlatMonteCarloSimulation` (Gomoku3.py) -/

/-- Index of the first occurrence of `pat` as a contiguous sublist of `s`
(the span start that `re.search` reports for a literal pattern). -/
def firstMatch (pat : List Nat) : List Nat → Option Nat
  | [] => if pat = [] then some 0 else none
  | a :: s => if pat.isPrefixOf (a :: s) then some 0 else (firstMatch pat s).map (· + 1)

/-- The points of line `r` inside the matched span `[i, i + len)` whose colour
is 0, in span order — the bodies of the inner loop of `get_win`. -/
def matchedEmpties (r sl : List Nat) (i len : Nat) : List Nat :=
  (List.range len).filterMap
    (fun k => if sl.getD (i + k) 9 = 0 then some (r.getD (i + k) 0) else none)

/-- Matches contributed by one pattern on one line in `get_win`. -/
def winMatches (r sl : List Nat) (pat : List Nat) : List Nat :=
  match firstMatch pat sl with
  | some i => matchedEmpties r sl i pat.length
  | none => []

/-- `FlatMonteCarloSimulation.get_win` restricted to one line: the colour
string of the line is scanned for each winning pattern and the empty cells of
the first matched span are collected. -/
def get_win_line (b : Board) (r : List Nat) (pats : List (List Nat)) : List Nat :=
  pats.foldl (fun acc pat => acc ++ winMatches r (r.map (get_color b)) pat) []

/-- `FlatMonteCarloSimulation.get_win`: scan every line, accumulate the empty
cells of matched winning patterns, and return `None` (here `none`) when nothing
was found. -/
def get_win (b : Board) (lns : List (List Nat)) (pats : List (List Nat)) : Option (List Nat) :=
  let idx := lns.foldl (fun acc r => acc ++ get_win_line b r pats) []
  if idx = [] then none else some idx

/-- The Black win patterns `['11110', '11101', '11011', '10111', '01111']`. -/
def blackWinPats : List (List Nat) :=
  [[1, 1, 1, 1, 0], [1, 1, 1, 0, 1], [1, 1, 0, 1, 1], [1, 0, 1, 1, 1], [0, 1, 1, 1, 1]]

/-- The White win patterns `['22220', '22202', '22022', '20222', '02222']`. -/
def whiteWinPats : List (List Nat) :=
  [[2, 2, 2, 2, 0], [2, 2, 2, 0, 2], [2, 2, 0, 2, 2], [2, 0, 2, 2, 2], [0, 2, 2, 2, 2]]

/-- `list(set(...))` on a list of small ints: deduplication (first-seen order
in this model; the claims below depend only on membership). -/
def pydedup {α : Type} [DecidableEq α] (l : List α) : List α :=
  l.foldl (fun acc x => if x ∈ acc then acc else acc ++ [x]) []

/-- Dedup the optional result of `get_win` as `win_wrapper` does, with `None`
contributing nothing. -/
def optDedup : Option (List Nat) → List Nat
  | some l => pydedup l
  | none => []

/-- `FlatMonteCarloSimulation.win_wrapper`: pick the patterns of the player to
move, run `get_win` over rows, columns and diagonals, and append the
deduplicated results. -/
def win_wrapper (b : Board) : List Nat :=
  let pats := if b.current_player = 1 then blackWinPats else whiteWinPats
  optDedup (get_win b (Board.table_rows b) pats)
    ++ optDedup (get_win b (Board.table_cols b) pats)
    ++ optDedup (get_win b (Board.table_diags b) pats)

/-- `FlatMonteCarloSimulation.block_win`: flip `current_player` to the
opponent, run `win_wrapper`, flip back.  The returned pair is (win list,
board after the two flips). -/
def block_win (b : Board) : List Nat × Board :=
  let b1 : Board := { b with current_player := opponent b.current_player }
  let win_list := win_wrapper b1
  let b2 : Board := { b1 with current_player := opponent b1.current_player }
  (win_list, b2)

/-- The character alphabet of `has_open_four_in_list`: opponent stone, empty,
own stone. -/
inductive PCell where
  | o
  | dot
  | x
  deriving DecidableEq

/-- The conditional character append of `has_open_four_in_list`: `None` when
the cell colour matches no branch (then nothing is appended). -/
def charOf (b : Board) (player stone : Nat) : Option PCell :=
  if get_color b stone = opponent player then some PCell.o
  else if get_color b stone = 0 then some PCell.dot
  else if get_color b stone = player then some PCell.x
  else none

/-- Shape `.xxx..`. -/
def shapeA : List PCell := [PCell.dot, PCell.x, PCell.x, PCell.x, PCell.dot, PCell.dot]
/-- Shape `..xxx.`. -/
def shapeB : List PCell := [PCell.dot, PCell.dot, PCell.x, PCell.x, PCell.x, PCell.dot]
/-- Shape `.x.xx.`. -/
def shapeC : List PCell := [PCell.dot, PCell.x, PCell.dot, PCell.x, PCell.x, PCell.dot]
/-- Shape `.xx.x.`. -/
def shapeD : List PCell := [PCell.dot, PCell.x, PCell.x, PCell.dot, PCell.x, PCell.dot]

/-- The stone loop of `has_open_four_in_list`: `counter` is the index of the
stone about to be processed, `pattern` the accumulated character list, `moves`
the collected playable positions. -/
def hofLoop (b : Board) (player : Nat) (full : List Nat) :
    List Nat → Nat → List PCell → List Nat → List Nat
  | [], _, _, moves => moves
  | stone :: rest, counter, pattern, moves =>
    let pattern' := match charOf b player stone with
      | some c => pattern ++ [c]
      | none => pattern
    let moves' :=
      if 6 ≤ pattern'.length then
        let w := pattern'.drop (pattern'.length - 6)
        if w = shapeA then moves ++ [full.getD (counter - 1) 0]
        else if w = shapeB then moves ++ [full.getD (counter - 4) 0]
        else if w = shapeC then moves ++ [full.getD (counter - 3) 0]
        else if w = shapeD then moves ++ [full.getD (counter - 2) 0]
        else moves
      else moves
    hofLoop b player full rest (counter + 1) pattern' moves'

/-- `FlatMonteCarloSimulation.has_open_four_in_list`. -/
def has_open_four_in_list (b : Board) (l : List Nat) (player : Nat) : List Nat :=
  hofLoop b player l l 0 [] []

/-- `FlatMonteCarloSimulation.open_four`: collect open-four moves of the player
to move over rows, columns and diagonals. -/
def open_four (b : Board) : List Nat :=
  (Board.rows b).foldl (fun acc r => acc ++ has_open_four_in_list b r b.current_player) []
    ++ (Board.cols b).foldl (fun acc c => acc ++ has_open_four_in_list b c b.current_player) []
    ++ (Board.diags b).foldl (fun acc d => acc ++ has_open_four_in_list b d b.current_player) []

/-- `FlatMonteCarloSimulation.block_open_four`: the same scan run for the
opponent, without flipping `current_player`. -/
def block_open_four (b : Board) : List Nat :=
  (Board.rows b).foldl
      (fun acc r => acc ++ has_open_four_in_list b r (opponent b.current_player)) []
    ++ (Board.cols b).foldl
      (fun acc c => acc ++ has_open_four_in_list b c (opponent b.current_player)) []
    ++ (Board.diags b).foldl
      (fun acc d => acc ++ has_open_four_in_list b d (opponent b.current_player)) []

/-- `FlatMonteCarloSimulation.get_rule_moves`: in `"random"` mode all legal
moves; otherwise the first non-empty tactical category in the fixed priority
order Win, BlockWin, OpenFour, BlockOpenFour, Random. -/
def get_rule_moves (policy : String) (b : Board) : String × List Nat :=
  if policy = "random" then ("Random", generate_legal_moves b b.current_player)
  else
    let win := win_wrapper b
    let bw := (block_win b).1
    let o4 := open_four b
    let bo4 := block_open_four b
    if win ≠ [] then ("Win", win)
    else if bw ≠ [] then ("BlockWin", bw)
    else if o4 ≠ [] then ("OpenFour", o4)
    else if bo4 ≠ [] then ("BlockOpenFour", bo4)
    else ("Random", generate_legal_moves b b.current_player)

/-! ## The Monte Carlo evaluator (Gomoku3.py)

`simulate` and `simulate_score` manipulate the result of `get_rule_moves`
as if it were a plain move list, although it is the pair
`(category, move_list)`.  To embed this faithfully the dynamic values
involved are modelled by `PyVal`: the elements of
`list(self.get_rule_moves(policy))` are the category string and the raw move
list, and `set(...)` of such values faults on the unhashable list exactly as
CPython does.  Errors carry the board state at the moment of the fault. -/

/-- A dynamic value: a move (int), the category string, or a raw move list. -/
inductive PyVal where
  | int (n : Nat)
  | str (s : String)
  | list (l : List Nat)
  deriving DecidableEq

/-- Modelled from the spec: `board.play_move` applied to a dynamic value.
`play` takes a Move, i.e. a grid index; handing it the category string or the
raw move list faults. -/
def play_move_py (v : PyVal) (color : Nat) (b : Board) : Except (String × Board) (Bool × Board) :=
  match v with
  | PyVal.int m => Except.ok (play_move m color b)
  | PyVal.str _ => Except.error ("TypeError: invalid move value", b)
  | PyVal.list _ => Except.error ("TypeError: invalid move value", b)

/-- Modelled from the spec: `board.undo` applied to a dynamic value. -/
def undo_py (v : PyVal) (b : Board) : Except (String × Board) Board :=
  match v with
  | PyVal.int m => Except.ok (undo m b)
  | PyVal.str _ => Except.error ("TypeError: invalid move value", b)
  | PyVal.list _ => Except.error ("TypeError: invalid move value", b)

/-- `FlatMonteCarloSimulation.undo_multiple` over dynamic values. -/
def undo_multiple_py : List PyVal → Board → Except (String × Board) Board
  | [], b => Except.ok b
  | v :: rest, b =>
    match undo_py v b with
    | Except.ok b' => undo_multiple_py rest b'
    | Except.error e => Except.error e

/-- Is a `PyVal` hashable in CPython?  Lists are not. -/
def pyHashable : PyVal → Bool
  | PyVal.int _ => true
  | PyVal.str _ => true
  | PyVal.list _ => false

/-- `set(...)` over the elements of a dynamic sequence: faults with a
`TypeError` when an element is unhashable, otherwise deduplicates. -/
def pySet (l : List PyVal) : Except String (List PyVal) :=
  if l.all (fun v => pyHashable v) then Except.ok (pydedup l)
  else Except.error "TypeError: unhashable type"

/-- The while loop of `FlatMonteCarloSimulation.simulate`: while no
five-in-a-row is present and the worklist is non-empty, play the last element,
copy it over index 0 and pop it.  `fuel` bounds the recursion; it is always
called with `fuel = worklist.length`, which the loop strictly decreases. -/
def simLoop : Nat → Board → List PyVal → Except (String × Board) Board
  | 0, b, _ => Except.ok b
  | fuel + 1, b, am =>
    if detect_five_in_a_row b = 0 ∧ am ≠ [] then
      match am.getLast? with
      | none => Except.ok b
      | some v =>
        match play_move_py v b.current_player b with
        | Except.error e => Except.error e
        | Except.ok (_, b') => simLoop fuel b' ((am.set 0 v).dropLast)
    else Except.ok b

/-- `FlatMonteCarloSimulation.simulate`: one rollout.  The candidate pair is
computed once, wrapped by `list(...)` into the two-element worklist
`[category, move_list]`, shuffled (`σ` models `random.shuffle`), and consumed
by `simLoop`; the terminal detector's result is returned. -/
def simulate (σ : List PyVal → List PyVal) (policy : String) (b : Board) :
    Except (String × Board) (Nat × Board) :=
  if detect_five_in_a_row b = 0 ∧ get_empty_points b ≠ [] then
    let pr := get_rule_moves policy b
    let am := σ [PyVal.str pr.1, PyVal.list pr.2]
    match simLoop am.length b am with
    | Except.ok b' => Except.ok (detect_five_in_a_row b', b')
    | Except.error e => Except.error e
  else Except.ok (detect_five_in_a_row b, b)

/-- The simulation loop of `simulate_score`: run `simulate`, tally the winner,
then form `set(all_moves) - set(leftover_moves)` — both operands are the raw
`(category, move_list)` pairs — and undo that difference. -/
def simScoreLoop (σ : List PyVal → List PyVal) (policy : String) (am : String × List Nat) :
    Nat → List Nat → Board → Except (String × Board) (List Nat × Board)
  | 0, stats, b => Except.ok (stats, b)
  | n + 1, stats, b =>
    match simulate σ policy b with
    | Except.error e => Except.error e
    | Except.ok (winner, b') =>
      let stats' := stats.set winner (stats.getD winner 0 + 1)
      let leftover := get_rule_moves policy b'
      match pySet [PyVal.str am.1, PyVal.list am.2] with
      | Except.error msg => Except.error (msg, b')
      | Except.ok s1 =>
        match pySet [PyVal.str leftover.1, PyVal.list leftover.2] with
        | Except.error msg => Except.error (msg, b')
        | Except.ok s2 =>
          match undo_multiple_py (s1.filter (fun v => v ∉ s2)) b' with
          | Except.error e => Except.error e
          | Except.ok b2 => simScoreLoop σ policy am n stats' b2

/-- Sum of the outcome tallies. -/
def statsSum (stats : List Nat) : Nat := stats.foldl (· + ·) 0

/-- `FlatMonteCarloSimulation.simulate_score`: look the colour up in
`color_scheme` (the callers pass the integer colours 1 and 2), play the
candidate move, run 10 simulations, assert the tally sum, undo the move and
form the score `(stats[current_player] + 0.5 * stats[EMPTY]) / 10`, inverted
when the querying colour differs from the player to move. -/
def simulate_score (σ : List PyVal → List PyVal) (color move : Nat) (policy : String)
    (b : Board) : Except (String × Board) (ℚ × Board) :=
  if color = 1 ∨ color = 2 then
    let b1 := (play_move move b.current_player b).2
    let am := get_rule_moves policy b1
    match simScoreLoop σ policy am 10 [0, 0, 0] b1 with
    | Except.error e => Except.error e
    | Except.ok (stats, b2) =>
      if statsSum stats = 10 then
        let b3 := undo move b2
        let result : ℚ :=
          ((stats.getD b3.current_player 0 : ℚ) + (1 / 2) * (stats.getD 0 0 : ℚ)) / 10
        if color ≠ b3.current_player then Except.ok (1 - result, b3)
        else Except.ok (result, b3)
      else Except.error ("AssertionError", b2)
  else Except.error ("KeyError", b)

/-- First index of `x` in a rational list (`list.index`). -/
def idxOfQ (x : ℚ) : List ℚ → Nat
  | [] => 0
  | a :: rest => if a = x then 0 else idxOfQ x rest + 1

/-- The candidate loop of `genmove`: score each candidate with
`simulate_score` and store the score at the index equal to the board position
(`score[int(pos)] = ...`), faulting like CPython when the position exceeds the
padded score array. -/
def genmoveLoop (σ : List PyVal → List PyVal) (policy : String) (color : Nat) :
    List Nat → List ℚ → Board → Except (String × Board) (List ℚ × Board)
  | [], score, b => Except.ok (score, b)
  | mv :: rest, score, b =>
    match simulate_score σ color mv policy b with
    | Except.error e => Except.error e
    | Except.ok (s, b') =>
      if mv < score.length then genmoveLoop σ policy color rest (score.set mv s) b'
      else Except.error ("IndexError", b')

/-- `FlatMonteCarloSimulation.genmove`: build the padded score array of length
`2 * numMoves`, score every candidate, take the index of the maximum
(`score.index(max(score))`, faulting on an empty list as `max([])` does) and
assert that it is an empty point. -/
def genmove (σ : List PyVal → List PyVal) (policy : String) (color : Nat) (b : Board) :
    Except (String × Board) (Nat × Board) :=
  let moves := (get_rule_moves policy b).2
  match genmoveLoop σ policy color moves (List.replicate (moves.length + moves.length) 0) b with
  | Except.error e => Except.error e
  | Except.ok (score, b') =>
    match score with
    | [] => Except.error ("ValueError: max of empty sequence", b')
    | q :: qs =>
      let best := idxOfQ (qs.foldl max q) score
      if best ∈ get_empty_points b' then Except.ok (best, b')
      else Except.error ("AssertionError", b')

/-- Did the computation return normally? -/
def exceptOk {ε α : Type} : Except ε α → Bool
  | Except.ok _ => true
  | Except.error _ => false

/-- The board carried by a faulting computation, `none` on normal return. -/
def errBoard {α : Type} : Except (String × Board) α → Option Board
  | Except.error e => some e.2
  | Except.ok _ => none

/-! ## The protocol dispatcher (gtp_connection.py)

`GtpConnection.get_cmd` parses one input line, validates the argument count
against `self.argmap` and dispatches to `self.commands`.  Handlers are
modelled by their completion behaviour: normal completion, a raised
exception, or `exit()` (a `SystemExit`, which `except Exception` does not
catch).  The outcome records what the session observes: `argError` and
`unknown` are the recovered paths that emit a `? message` response line and
return to Idle, `done` is a normal dispatch, `fatal` is an exception
re-raised by the `raise e` in `get_cmd` (it propagates out of
`start_connection` and ends the process), and `closed` is the quit path. -/

/-- Completion behaviour of one command handler. -/
inductive HandlerResult where
  | ok
  | raised (msg : String)
  | exited
  deriving DecidableEq

/-- What one call of `get_cmd` does, as observed by the session. -/
inductive CmdOutcome where
  | ignored
  | argError (msg : String)
  | unknown
  | done
  | fatal (msg : String)
  | closed
  deriving DecidableEq

/-- Split a character stream on whitespace runs, dropping empty tokens —
`str.split()` with no separator. -/
def splitWsAux : List Char → List Char → List String
  | [], cur => if cur = [] then [] else [String.mk cur.reverse]
  | c :: rest, cur =>
    if c.isWhitespace then
      if cur = [] then splitWsAux rest []
      else String.mk cur.reverse :: splitWsAux rest []
    else splitWsAux rest (c :: cur)

/-- Tokenize an input line exactly as `get_cmd` does: drop lines that are
blank after `strip(" \r\t")`, drop `#` comment lines, strip a leading numeric
regression-test token (with following whitespace), split on whitespace and
return the command name and the argument tokens. -/
def parseLine (line : String) : Option (String × List String) :=
  let cs := line.toList
  if cs.all (fun c => c = ' ' ∨ c = '\r' ∨ c = '\t') then none
  else
    match cs with
    | [] => none
    | c :: _ =>
      if c = '#' then none
      else
        let cs2 := if c.isDigit then (cs.dropWhile Char.isDigit).dropWhile Char.isWhitespace
                   else cs
        match splitWsAux cs2 [] with
        | [] => none
        | name :: args => some (name, args)

/-- Lookup in an association table keyed by command name (a Python dict whose
keys are inserted once). -/
def lookupTable {α : Type} : List (String × α) → String → Option α
  | [], _ => none
  | (k, v) :: rest, key => if k = key then some v else lookupTable rest key

/-- `GtpConnection.has_arg_error`: `some usage_message` when the command has an
entry in the arity table and the parsed argument count differs from it. -/
def has_arg_error (argmap : List (String × Nat × String)) (cmd : String) (argnum : Nat) :
    Option String :=
  match lookupTable argmap cmd with
  | some (n, msg) => if n ≠ argnum then some msg else none
  | none => none

/-- `GtpConnection.get_cmd`: parse, check arity, dispatch.  A handler
exception is logged to the debug stream and then re-raised (`raise e`), which
this model records as `fatal`. -/
def get_cmd (commands : List (String × (List String → HandlerResult)))
    (argmap : List (String × Nat × String)) (line : String) : CmdOutcome :=
  match parseLine line with
  | none => CmdOutcome.ignored
  | some (name, args) =>
    match has_arg_error argmap name args.length with
    | some msg => CmdOutcome.argError msg
    | none =>
      match lookupTable commands name with
      | some h =>
        match h args with
        | HandlerResult.ok => CmdOutcome.done
        | HandlerResult.raised msg => CmdOutcome.fatal msg
        | HandlerResult.exited => CmdOutcome.closed
      | none => CmdOutcome.unknown

/-- `GtpConnection.argmap`, verbatim from the source.  Note the last key:
the dispatcher looks commands up by their registered name, and no command is
registered as `policytype` (the policy-change command is registered as
`policy`). -/
def gomokuArgmap : List (String × Nat × String) :=
  [("boardsize", (1, "Usage: boardsize INT")),
   ("komi", (1, "Usage: komi FLOAT")),
   ("known_command", (1, "Usage: known_command CMD_NAME")),
   ("genmove", (1, "Usage: genmove \x7bw,b\x7d")),
   ("play", (2, "Usage: play \x7bb,w\x7d MOVE")),
   ("legal_moves", (1, "Usage: legal_moves \x7bw,b\x7d")),
   ("policytype", (1, "Usage: setting policy type"))]

/-- Decimal digit parsing: the fragment of Python `int()` exercised here —
`some` on an all-digit token, `none` (a `ValueError`) otherwise. -/
def pyInt (s : String) : Option Nat :=
  match s.toList with
  | [] => none
  | l => if l.all Char.isDigit
         then some (l.foldl (fun a c => a * 10 + (c.toNat - 48)) 0)
         else none

/-- `GtpConnection.boardsize_cmd`: `int(args[0])` then reset; a non-numeric
argument raises `ValueError` out of the handler.  The board reset itself
always succeeds and is not observable in the completion behaviour. -/
def boardsize_cmd (args : List String) : HandlerResult :=
  match args with
  | a :: _ =>
    match pyInt a with
    | some _ => HandlerResult.ok
    | none => HandlerResult.raised "ValueError"
  | [] => HandlerResult.raised "IndexError"

/-- `GtpConnection.quit_cmd`: responds and calls `exit()`. -/
def quit_cmd (_args : List String) : HandlerResult := HandlerResult.exited

/-- `GtpConnection.protocol_version_cmd`: always responds `2`. -/
def protocol_version_cmd (_args : List String) : HandlerResult := HandlerResult.ok

/-- `GtpConnection.policy_cmd`: reads `args[0]` (an `IndexError` when the
argument list is empty — the arity table has no entry under the registered
name `policy`) and silently sets or ignores the mode. -/
def policy_cmd (args : List String) : HandlerResult :=
  match args with
  | _ :: _ => HandlerResult.ok
  | [] => HandlerResult.raised "IndexError"

/-- The fragment of `GtpConnection.commands` needed by the concrete dispatch
scenarios below; lookup is by name, so entries not consulted by a scenario do
not influence its outcome. -/
def gomokuCommandsFrag : List (String × (List String → HandlerResult)) :=
  [("protocol_version", protocol_version_cmd),
   ("quit", quit_cmd),
   ("boardsize", boardsize_cmd),
   ("policy", policy_cmd)]

/-! ## Concrete boards for witnesses and counterexamples -/

/-- Build a board with an empty history. -/
def mkBoard (n : Nat) (cells : List Nat) (cp : Nat) : Board :=
  { size := n, cells := cells, current_player := cp, history := [] }

/-- An empty 2 by 2 board, Black to move: the smallest non-terminal board. -/
def bd2 : Board := mkBoard 2 [0, 0, 0, 0] 1

/-- An empty 3 by 3 board, White to move. -/
def bd3 : Board := mkBoard 3 [0, 0, 0, 0, 0, 0, 0, 0, 0] 2

/-- A 5 by 5 board whose first row is `1 1 1 1 0`, Black to move: Black has
the immediate win at point 4. -/
def bdW : Board :=
  mkBoard 5
    [1, 1, 1, 1, 0,
     0, 0, 0, 0, 0,
     0, 0, 0, 0, 0,
     0, 0, 0, 0, 0,
     0, 0, 0, 0, 0] 1

/-- A terminal 5 by 5 board: Black already has five in a row. -/
def bdT : Board :=
  mkBoard 5
    [1, 1, 1, 1, 1,
     0, 0, 0, 0, 0,
     0, 0, 0, 0, 0,
     2, 2, 2, 2, 0,
     0, 0, 0, 0, 0] 2

/-- The total character classification of a well-formed cell, the value that
`charOf` returns on boards whose cells are all in {0, 1, 2}. -/
def chrT (b : Board) (player s : Nat) : PCell :=
  if get_color b s = opponent player then PCell.o
  else if get_color b s = 0 then PCell.dot
  else PCell.x

/-! ## General list lemmas -/

theorem mem_foldl_append {α β : Type} (f : β → List α) (m : α) :
    ∀ (l : List β) (acc : List α),
      m ∈ l.foldl (fun a x => a ++ f x) acc → m ∈ acc ∨ ∃ x, x ∈ l ∧ m ∈ f x := by
  intro l
  induction l with
  | nil => intro acc h; exact Or.inl h
  | cons y ys ih =>
    intro acc h
    rcases ih (acc ++ f y) h with h1 | ⟨x, hx, hm⟩
    · rcases List.mem_append.mp h1 with h2 | h2
      · exact Or.inl h2
      · exact Or.inr ⟨y, List.mem_cons_self _ _, h2⟩
    · exact Or.inr ⟨x, List.mem_cons_of_mem _ hx, hm⟩

theorem mem_pydedup_aux {α : Type} [DecidableEq α] (m : α) :
    ∀ (l acc : List α),
      m ∈ l.foldl (fun acc x => if x ∈ acc then acc else acc ++ [x]) acc → m ∈ acc ∨ m ∈ l := by
  intro l
  induction l with
  | nil => intro acc h; exact Or.inl h
  | cons y ys ih =>
    intro acc h
    rcases ih (if y ∈ acc then acc else acc ++ [y]) h with h1 | h1
    · by_cases hy : y ∈ acc
      · rw [if_pos hy] at h1; exact Or.inl h1
      · rw [if_neg hy] at h1
        rcases List.mem_append.mp h1 with h2 | h2
        · exact Or.inl h2
        · have hm : m = y := List.mem_singleton.mp h2
          exact Or.inr (by rw [hm]; exact List.mem_cons_self y ys)
    · exact Or.inr (List.mem_cons_of_mem _ h1)

theorem mem_pydedup {α : Type} [DecidableEq α] {m : α} {l : List α}
    (h : m ∈ pydedup l) : m ∈ l := by
  rcases mem_pydedup_aux m l [] h with h1 | h1
  · cases h1
  · exact h1

theorem perm_two {α : Type} {x y : α} {l : List α} (h : l.Perm [x, y]) :
    l = [x, y] ∨ l = [y, x] := by
  have hlen : l.length = 2 := by simpa using h.length_eq
  rcases l with _ | ⟨a, l⟩
  · simp at hlen
  rcases l with _ | ⟨b, l⟩
  · simp at hlen
  rcases l with _ | ⟨c, l⟩
  · have ha : a = x ∨ a = y := by
      have := h.subset (List.mem_cons_self a [b])
      simpa using this
    have hb : b = x ∨ b = y := by
      have := h.subset (show b ∈ [a, b] by simp)
      simpa using this
    rcases ha with ha | ha <;> rcases hb with hb | hb
    · have hy0 : y ∈ ([a, b] : List α) := h.mem_iff.mpr (by simp)
      rw [ha, hb] at hy0
      have hy : y = x := by simpa using hy0
      exact Or.inl (by rw [ha, hb, hy])
    · exact Or.inl (by rw [ha, hb])
    · exact Or.inr (by rw [ha, hb])
    · have hx0 : x ∈ ([a, b] : List α) := h.mem_iff.mpr (by simp)
      rw [ha, hb] at hx0
      have hx : x = y := by simpa using hx0
      exact Or.inl (by rw [ha, hb, hx])
  · simp at hlen

theorem getD_drop' {α : Type} (d : α) :
    ∀ (l : List α) (i j : Nat), (l.drop i).getD j d = l.getD (i + j) d := by
  intro l
  induction l with
  | nil => intro i j; simp
  | cons a t ih =>
    intro i j
    cases i with
    | zero => simp
    | succ k =>
      have hadd : k + 1 + j = (k + j) + 1 := by omega
      rw [hadd]
      simp [ih k j]

theorem getD_take' {α : Type} (d : α) :
    ∀ (l : List α) (n j : Nat), j < n → (l.take n).getD j d = l.getD j d := by
  intro l
  induction l with
  | nil => intro n j _; simp
  | cons a t ih =>
    intro n j hj
    cases n with
    | zero => omega
    | succ k =>
      cases j with
      | zero => simp
      | succ i => simpa using ih k i (by omega)

theorem getD_map' {α β : Type} (f : α → β) (d : β) (d' : α) :
    ∀ (l : List α) (j : Nat), j < l.length → (l.map f).getD j d = f (l.getD j d') := by
  intro l
  induction l with
  | nil => intro j hj; simp at hj
  | cons a t ih =>
    intro j hj
    cases j with
    | zero => simp
    | succ i => simpa using ih i (by simpa using hj)

theorem take_succ_getD {α : Type} (d : α) :
    ∀ (l : List α) (n : Nat), n < l.length → l.take (n + 1) = l.take n ++ [l.getD n d] := by
  intro l
  induction l with
  | nil => intro n hn; simp at hn
  | cons a t ih =>
    intro n hn
    cases n with
    | zero => simp
    | succ k => simpa using ih k (by simpa using hn)

/-! ## The win scan only nominates empty cells -/

theorem mem_matchedEmpties_empty {b : Board} {r : List Nat} {i len m : Nat}
    (h : m ∈ matchedEmpties r (r.map (get_color b)) i len) : get_color b m = 0 := by
  unfold matchedEmpties at h
  rcases List.mem_filterMap.mp h with ⟨k, _, hsome⟩
  by_cases hz : (r.map (get_color b)).getD (i + k) 9 = 0
  · rw [if_pos hz] at hsome
    have hm : r.getD (i + k) 0 = m := Option.some.inj hsome
    rcases Nat.lt_or_ge (i + k) r.length with hlt | hge
    · have h1 : (r.map (get_color b)).getD (i + k) 9 = get_color b (r.getD (i + k) 0) :=
        getD_map' (get_color b) 9 0 r (i + k) hlt
      rw [h1, hm] at hz
      exact hz
    · have h9 : (r.map (get_color b)).getD (i + k) 9 = 9 := by
        apply List.getD_eq_default
        simpa using hge
      rw [h9] at hz
      omega
  · rw [if_neg hz] at hsome
    cases hsome

theorem mem_get_win_line_empty {b : Board} {r : List Nat} {pats : List (List Nat)} {m : Nat}
    (h : m ∈ get_win_line b r pats) : get_color b m = 0 := by
  unfold get_win_line at h
  rcases mem_foldl_append _ m pats [] h with h0 | ⟨pat, _, hm⟩
  · cases h0
  · unfold winMatches at hm
    rcases hfm : firstMatch pat (r.map (get_color b)) with _ | i
    · rw [hfm] at hm; cases hm
    · rw [hfm] at hm; exact mem_matchedEmpties_empty hm

theorem mem_get_win_empty {b : Board} {lns pats : List (List Nat)} {l : List Nat} {m : Nat}
    (hg : get_win b lns pats = some l) (h : m ∈ l) : get_color b m = 0 := by
  unfold get_win at hg
  by_cases hidx : (lns.foldl (fun acc r => acc ++ get_win_line b r pats) []) = []
  · simp [hidx] at hg
  · simp only [if_neg hidx] at hg
    have hl : l = lns.foldl (fun acc r => acc ++ get_win_line b r pats) [] :=
      (Option.some.inj hg).symm
    rw [hl] at h
    rcases mem_foldl_append _ m lns [] h with h0 | ⟨r, _, hm⟩
    · cases h0
    · exact mem_get_win_line_empty hm

theorem mem_optDedup_empty {b : Board} {lns pats : List (List Nat)} {m : Nat}
    (h : m ∈ optDedup (get_win b lns pats)) : get_color b m = 0 := by
  rcases hg : get_win b lns pats with _ | l
  · rw [hg] at h; cases h
  · rw [hg] at h
    exact mem_get_win_empty hg (mem_pydedup h)

theorem mem_win_wrapper_empty {b : Board} {m : Nat}
    (h : m ∈ win_wrapper b) : get_color b m = 0 := by
  unfold win_wrapper at h
  rcases List.mem_append.mp h with h1 | h1
  · rcases List.mem_append.mp h1 with h2 | h2
    · exact mem_optDedup_empty h2
    · exact mem_optDedup_empty h2
  · exact mem_optDedup_empty h1

/-! ## The open-four scan only nominates empty cells -/

theorem get_color_cases (b : Board) (hcells : ∀ c ∈ b.cells, c = 0 ∨ c = 1 ∨ c = 2) (s : Nat) :
    get_color b s = 0 ∨ get_color b s = 1 ∨ get_color b s = 2 := by
  unfold get_color
  rcases Nat.lt_or_ge s b.cells.length with hlt | hge
  · rw [List.getD_eq_getElem _ _ hlt]
    exact hcells _ (List.getElem_mem hlt)
  · rw [List.getD_eq_default _ _ (by simpa using hge)]
    exact Or.inl rfl

theorem charOf_eq_chrT {b : Board} {player : Nat} (s : Nat) (hp : player = 1 ∨ player = 2)
    (hcells : ∀ c ∈ b.cells, c = 0 ∨ c = 1 ∨ c = 2) :
    charOf b player s = some (chrT b player s) := by
  have hcol := get_color_cases b hcells s
  unfold charOf chrT
  rcases hp with rfl | rfl <;> rcases hcol with h | h | h <;> simp [h, opponent]

theorem chrT_dot {b : Board} {player s : Nat} (h : chrT b player s = PCell.dot) :
    get_color b s = 0 := by
  unfold chrT at h
  split_ifs at h with h1 h2
  · exact h2

theorem window_dot (b : Board) (player : Nat) (full : List Nat) (counter : Nat)
    (hclt : counter < full.length) (h6 : 6 ≤ counter + 1)
    (S : List PCell) (t : Nat) (ht : t < 6) (hdot : S.getD t PCell.o = PCell.dot)
    (hw : ((full.take (counter + 1)).map (fun s => chrT b player s)).drop (counter + 1 - 6) = S) :
    get_color b (full.getD (counter - 5 + t) 0) = 0 := by
  have hlen_take : (full.take (counter + 1)).length = counter + 1 := by
    simp [List.length_take]
    omega
  have e3 : S.getD t PCell.o
      = ((full.take (counter + 1)).map (fun s => chrT b player s)).getD (counter + 1 - 6 + t)
          PCell.o := by
    rw [← hw, getD_drop']
  have e1 : ((full.take (counter + 1)).map (fun s => chrT b player s)).getD (counter + 1 - 6 + t)
      PCell.o = chrT b player ((full.take (counter + 1)).getD (counter + 1 - 6 + t) 0) := by
    apply getD_map'
    rw [hlen_take]
    omega
  have e2 : (full.take (counter + 1)).getD (counter + 1 - 6 + t) 0
      = full.getD (counter + 1 - 6 + t) 0 := by
    apply getD_take'
    omega
  have heq : counter + 1 - 6 + t = counter - 5 + t := by omega
  apply chrT_dot
  rw [← heq]
  rw [← e2, ← e1, ← e3, hdot]

theorem hofLoop_mem_empty (b : Board) (player : Nat) (full : List Nat)
    (hp : player = 1 ∨ player = 2)
    (hcells : ∀ c ∈ b.cells, c = 0 ∨ c = 1 ∨ c = 2) :
    ∀ (rest : List Nat) (counter : Nat) (pattern : List PCell) (moves : List Nat),
      full.drop counter = rest →
      counter ≤ full.length →
      pattern = (full.take counter).map (fun s => chrT b player s) →
      (∀ m ∈ moves, get_color b m = 0) →
      ∀ m ∈ hofLoop b player full rest counter pattern moves, get_color b m = 0 := by
  intro rest
  induction rest with
  | nil =>
    intro counter pattern moves _ _ _ hmoves m hm
    exact hmoves m (by simpa [hofLoop] using hm)
  | cons stone rest ih =>
    intro counter pattern moves hdrop hcle hpat hmoves m hm
    have hclt : counter < full.length := by
      have hlen := congrArg List.length hdrop
      simp [List.length_drop] at hlen
      omega
    have hstone : full.getD counter 0 = stone := by
      have h0 : (full.drop counter).getD 0 0 = full.getD (counter + 0) 0 := getD_drop' 0 full counter 0
      rw [hdrop] at h0
      simpa using h0.symm
    have hchar : charOf b player stone = some (chrT b player stone) := charOf_eq_chrT stone hp hcells
    have hpat' : pattern ++ [chrT b player stone]
        = (full.take (counter + 1)).map (fun s => chrT b player s) := by
      rw [take_succ_getD 0 full counter hclt, List.map_append, ← hpat, hstone]
      simp
    have hlen' : (pattern ++ [chrT b player stone]).length = counter + 1 := by
      rw [hpat', List.length_map, List.length_take]
      omega
    have hdrop' : full.drop (counter + 1) = rest := by
      have h1 : full.drop (counter + 1) = (full.drop counter).drop 1 := by
        rw [List.drop_drop]
      rw [h1, hdrop]
      simp
    rw [hofLoop, hchar] at hm
    -- name the window and case on the shape tests
    by_cases h6 : 6 ≤ (pattern ++ [chrT b player stone]).length
    · have h6c : 6 ≤ counter + 1 := by rw [← hlen']; exact h6
      have hwval : (pattern ++ [chrT b player stone]).drop
            ((pattern ++ [chrT b player stone]).length - 6)
          = ((full.take (counter + 1)).map (fun s => chrT b player s)).drop (counter + 1 - 6) := by
        rw [hlen', hpat']
      have hnewmoves : ∀ (d t : Nat), t < 6 → counter - d = counter - 5 + t →
          ((pattern ++ [chrT b player stone]).drop
              ((pattern ++ [chrT b player stone]).length - 6)).getD t PCell.o = PCell.dot →
          ∀ m' ∈ moves ++ [full.getD (counter - d) 0], get_color b m' = 0 := by
        intro d t ht hdt hdott m' hm'
        rcases List.mem_append.mp hm' with hold | hnew
        · exact hmoves m' hold
        · have hm'' : m' = full.getD (counter - d) 0 := List.mem_singleton.mp hnew
          rw [hm'', hdt]
          exact window_dot b player full counter hclt h6c _ t ht
            (by rw [← hwval]; exact hdott) rfl
      simp only [if_pos h6] at hm
      by_cases hA : (pattern ++ [chrT b player stone]).drop
          ((pattern ++ [chrT b player stone]).length - 6) = shapeA
      · rw [if_pos hA] at hm
        exact ih (counter + 1) _ _ hdrop' (by omega) hpat'
          (hnewmoves 1 4 (by omega) (by omega) (by rw [hA]; rfl)) m hm
      · rw [if_neg hA] at hm
        by_cases hB : (pattern ++ [chrT b player stone]).drop
            ((pattern ++ [chrT b player stone]).length - 6) = shapeB
        · rw [if_pos hB] at hm
          exact ih (counter + 1) _ _ hdrop' (by omega) hpat'
            (hnewmoves 4 1 (by omega) (by omega) (by rw [hB]; rfl)) m hm
        · rw [if_neg hB] at hm
          by_cases hC : (pattern ++ [chrT b player stone]).drop
              ((pattern ++ [chrT b player stone]).length - 6) = shapeC
          · rw [if_pos hC] at hm
            exact ih (counter + 1) _ _ hdrop' (by omega) hpat'
              (hnewmoves 3 2 (by omega) (by omega) (by rw [hC]; rfl)) m hm
          · rw [if_neg hC] at hm
            by_cases hD : (pattern ++ [chrT b player stone]).drop
                ((pattern ++ [chrT b player stone]).length - 6) = shapeD
            · rw [if_pos hD] at hm
              exact ih (counter + 1) _ _ hdrop' (by omega) hpat'
                (hnewmoves 2 3 (by omega) (by omega) (by rw [hD]; rfl)) m hm
            · rw [if_neg hD] at hm
              exact ih (counter + 1) _ _ hdrop' (by omega) hpat' hmoves m hm
    · simp only [if_neg h6] at hm
      exact ih (counter + 1) _ _ hdrop' (by omega) hpat' hmoves m hm

theorem mem_hof_empty {b : Board} {l : List Nat} {player m : Nat}
    (hp : player = 1 ∨ player = 2)
    (hcells : ∀ c ∈ b.cells, c = 0 ∨ c = 1 ∨ c = 2)
    (h : m ∈ has_open_four_in_list b l player) : get_color b m = 0 := by
  have h0 := hofLoop_mem_empty b player l hp hcells l 0 [] []
    (by simp) (by simp) (by simp) (by simp)
  exact h0 m h

theorem mem_open_four_empty {b : Board} {m : Nat}
    (hp : b.current_player = 1 ∨ b.current_player = 2)
    (hcells : ∀ c ∈ b.cells, c = 0 ∨ c = 1 ∨ c = 2)
    (h : m ∈ open_four b) : get_color b m = 0 := by
  unfold open_four at h
  rcases List.mem_append.mp h with h1 | h1
  · rcases List.mem_append.mp h1 with h2 | h2 <;>
      · rcases mem_foldl_append _ m _ [] h2 with h0 | ⟨r, _, hm⟩
        · cases h0
        · exact mem_hof_empty hp hcells hm
  · rcases mem_foldl_append _ m _ [] h1 with h0 | ⟨r, _, hm⟩
    · cases h0
    · exact mem_hof_empty hp hcells hm

theorem opponent_player_cases {p : Nat} (hp : p = 1 ∨ p = 2) :
    opponent p = 1 ∨ opponent p = 2 := by
  rcases hp with rfl | rfl
  · exact Or.inr rfl
  · exact Or.inl rfl

theorem mem_block_open_four_empty {b : Board} {m : Nat}
    (hp : b.current_player = 1 ∨ b.current_player = 2)
    (hcells : ∀ c ∈ b.cells, c = 0 ∨ c = 1 ∨ c = 2)
    (h : m ∈ block_open_four b) : get_color b m = 0 := by
  unfold block_open_four at h
  have hp' := opponent_player_cases hp
  rcases List.mem_append.mp h with h1 | h1
  · rcases List.mem_append.mp h1 with h2 | h2 <;>
      · rcases mem_foldl_append _ m _ [] h2 with h0 | ⟨r, _, hm⟩
        · cases h0
        · exact mem_hof_empty hp' hcells hm
  · rcases mem_foldl_append _ m _ [] h1 with h0 | ⟨r, _, hm⟩
    · cases h0
    · exact mem_hof_empty hp' hcells hm

/-! ## Behaviour of the embedded evaluator -/

theorem opponent_opponent (n : Nat) : opponent (opponent n) = n := by
  unfold opponent
  by_cases h1 : n = 1
  · simp [h1]
  · by_cases h2 : n = 2 <;> simp [h1, h2]

theorem simulate_err_nonterminal (σ : List PyVal → List PyVal)
    (hσ : ∀ l : List PyVal, (σ l).Perm l) (policy : String) (b : Board)
    (h5 : detect_five_in_a_row b = 0) (he : get_empty_points b ≠ []) :
    simulate σ policy b = Except.error ("TypeError: invalid move value", b) := by
  unfold simulate
  rw [if_pos ⟨h5, he⟩]
  rcases perm_two (hσ [PyVal.str (get_rule_moves policy b).1,
      PyVal.list (get_rule_moves policy b).2]) with ha | ha <;>
    simp only [ha] <;> simp [simLoop, h5, play_move_py]

theorem simulate_ok_terminal (σ : List PyVal → List PyVal) (policy : String) (b : Board)
    (h : ¬(detect_five_in_a_row b = 0 ∧ get_empty_points b ≠ [])) :
    simulate σ policy b = Except.ok (detect_five_in_a_row b, b) := by
  unfold simulate
  rw [if_neg h]

theorem simScoreLoop_err (σ : List PyVal → List PyVal)
    (hσ : ∀ l : List PyVal, (σ l).Perm l) (policy : String) (am : String × List Nat)
    (n : Nat) (stats : List Nat) (b : Board) :
    ∃ msg, simScoreLoop σ policy am (n + 1) stats b = Except.error (msg, b) := by
  by_cases hterm : detect_five_in_a_row b = 0 ∧ get_empty_points b ≠ []
  · refine ⟨"TypeError: invalid move value", ?_⟩
    have hs := simulate_err_nonterminal σ hσ policy b hterm.1 hterm.2
    simp [simScoreLoop, hs]
  · refine ⟨"TypeError: unhashable type", ?_⟩
    have hs := simulate_ok_terminal σ policy b hterm
    simp [simScoreLoop, hs, pySet, pyHashable]

theorem simulate_score_err (σ : List PyVal → List PyVal)
    (hσ : ∀ l : List PyVal, (σ l).Perm l) (color move : Nat) (policy : String) (b : Board)
    (hc : color = 1 ∨ color = 2) :
    ∃ msg, simulate_score σ color move policy b
      = Except.error (msg, (play_move move b.current_player b).2) := by
  obtain ⟨msg, hmsg⟩ := simScoreLoop_err σ hσ policy
    (get_rule_moves policy ((play_move move b.current_player b).2)) 9 [0, 0, 0]
    ((play_move move b.current_player b).2)
  refine ⟨msg, ?_⟩
  unfold simulate_score
  rw [if_pos hc]
  have h10 : (10 : Nat) = 9 + 1 := rfl
  rw [h10]
  dsimp only
  rw [hmsg]

theorem simulate_score_not_ok (σ : List PyVal → List PyVal)
    (hσ : ∀ l : List PyVal, (σ l).Perm l) (color move : Nat) (policy : String) (b : Board) :
    exceptOk (simulate_score σ color move policy b) = false := by
  by_cases hc : color = 1 ∨ color = 2
  · obtain ⟨msg, h⟩ := simulate_score_err σ hσ color move policy b hc
    rw [h]
    rfl
  · unfold simulate_score
    rw [if_neg hc]
    rfl

/-! ## Claim theorems -/

/-- Claim C1 (code bug support).  The claim states that `simulate_score`
restores the board before returning.  In fact, for every legal candidate move
and every shuffle, the call faults during its first rollout iteration (the
worklist handed to the rollout is the raw `(category, move_list)` pair) and
the faulting state still has the candidate move played: the board visible at
the fault differs from the input board. -/
theorem simulate_score_board_not_restored (b : Board) (σ : List PyVal → List PyVal)
    (color move : Nat) (policy : String)
    (hσ : ∀ l : List PyVal, (σ l).Perm l)
    (hc : color = 1 ∨ color = 2)
    (hlt : move < b.size * b.size) (hem : get_color b move = 0) :
    errBoard (simulate_score σ color move policy b) = some ((play_move move b.current_player b).2)
      ∧ (play_move move b.current_player b).2 ≠ b := by
  obtain ⟨msg, h⟩ := simulate_score_err σ hσ color move policy b hc
  constructor
  · rw [h]
    rfl
  · intro heq
    have hhist : ((play_move move b.current_player b).2).history = move :: b.history := by
      unfold play_move
      rw [if_pos ⟨hlt, hem⟩]
    rw [heq] at hhist
    have hlen := congrArg List.length hhist
    rw [List.length_cons] at hlen
    omega

/-- Witness for C1: playing move 0 on the empty 2 by 2 board. -/
theorem simulate_score_board_not_restored_witness :
    (0 < bd2.size * bd2.size ∧ get_color bd2 0 = 0) ∧
    errBoard (simulate_score id 1 0 "random" bd2)
      = some ((play_move 0 bd2.current_player bd2).2) ∧
    (play_move 0 bd2.current_player bd2).2 ≠ bd2 :=
  ⟨by decide, simulate_score_board_not_restored bd2 id 1 0 "random"
      (fun l => List.Perm.refl l) (Or.inl rfl) (by decide) (by decide)⟩

/-- Counterexample for C2.  The claim says a rollout plays policy moves until
a terminal state is reached and returns the terminal winner; on the empty
3 by 3 board (non-terminal, moves available) `simulate` returns no winner at
all — it faults at the first ply. -/
theorem simulate_rollout_faults_cex :
    (detect_five_in_a_row bd3 = 0 ∧ get_empty_points bd3 ≠ []) ∧
    exceptOk (simulate id "random" bd3) = false := by decide

/-- Claim C2 (amended).  One rollout computes the policy-restricted candidate
set once at its start — not re-evaluated at each ply — and consumes the
shuffled two-element worklist `[category, move_list]`; consequently on every
non-terminal position the first play attempt faults with a type error without
playing a move, and on an already-terminal position the rollout returns the
terminal detector's result with the board unchanged. -/
theorem simulate_fixed_worklist (b : Board) (σ : List PyVal → List PyVal) (policy : String)
    (hσ : ∀ l : List PyVal, (σ l).Perm l) :
    ((detect_five_in_a_row b = 0 ∧ get_empty_points b ≠ []) →
       simulate σ policy b = Except.error ("TypeError: invalid move value", b)) ∧
    (¬(detect_five_in_a_row b = 0 ∧ get_empty_points b ≠ []) →
       simulate σ policy b = Except.ok (detect_five_in_a_row b, b)) :=
  ⟨fun h => simulate_err_nonterminal σ hσ policy b h.1 h.2,
   fun h => simulate_ok_terminal σ policy b h⟩

/-- Witness for C2 (amended): the empty 2 by 2 board in rule-based mode. -/
theorem simulate_fixed_worklist_witness :
    (detect_five_in_a_row bd2 = 0 ∧ get_empty_points bd2 ≠ []) ∧
    simulate id "rule_based" bd2 = Except.error ("TypeError: invalid move value", bd2) :=
  ⟨by decide,
   (simulate_fixed_worklist bd2 id "rule_based" (fun l => List.Perm.refl l)).1 (by decide)⟩

/-- Claim C3.  In rule-based mode `get_rule_moves` returns the first non-empty
category in the fixed priority order Win, BlockWin, OpenFour, BlockOpenFour,
Random; in particular a non-empty win scan always yields category `Win` with
exactly the win-scan moves, and no lower-priority category is returned while a
higher-priority one is non-empty. -/
theorem get_rule_moves_priority (b : Board) (policy : String) (hpol : policy ≠ "random") :
    (win_wrapper b ≠ [] → get_rule_moves policy b = ("Win", win_wrapper b)) ∧
    (win_wrapper b = [] → (block_win b).1 ≠ [] →
       get_rule_moves policy b = ("BlockWin", (block_win b).1)) ∧
    (win_wrapper b = [] → (block_win b).1 = [] → open_four b ≠ [] →
       get_rule_moves policy b = ("OpenFour", open_four b)) ∧
    (win_wrapper b = [] → (block_win b).1 = [] → open_four b = [] → block_open_four b ≠ [] →
       get_rule_moves policy b = ("BlockOpenFour", block_open_four b)) ∧
    (win_wrapper b = [] → (block_win b).1 = [] → open_four b = [] → block_open_four b = [] →
       get_rule_moves policy b = ("Random", generate_legal_moves b b.current_player)) := by
  unfold get_rule_moves
  rw [if_neg hpol]
  refine ⟨?_, ?_, ?_, ?_, ?_⟩
  · intro h1
    simp [h1]
  · intro h1 h2
    simp [h1, h2]
  · intro h1 h2 h3
    simp [h1, h2, h3]
  · intro h1 h2 h3 h4
    simp [h1, h2, h3, h4]
  · intro h1 h2 h3 h4
    simp [h1, h2, h3, h4]

/-- Witness for C3: on the board with the Black row `1 1 1 1 0` the win scan
is non-empty and the returned category is `Win` with exactly its moves. -/
theorem get_rule_moves_priority_witness :
    ("rule_based" : String) ≠ "random" ∧ win_wrapper bdW ≠ [] ∧
    get_rule_moves "rule_based" bdW = ("Win", win_wrapper bdW) :=
  ⟨by decide, by decide, (get_rule_moves_priority bdW "rule_based" (by decide)).1 (by decide)⟩

/-- Claim C4 (code bug support).  The claim states that whenever
`simulate_score` returns, exactly ten rollouts were tallied and the three
outcome counters sum to ten.  No call of `simulate_score` ever returns: the
first loop iteration faults before the tally bookkeeping completes, so the
batch of ten rollouts guarded by the source's own
`assert sum(stats) == TOTAL_SIMULATION` is never produced. -/
theorem simulate_score_no_complete_batch (b : Board) (σ : List PyVal → List PyVal)
    (color move : Nat) (policy : String) (hσ : ∀ l : List PyVal, (σ l).Perm l) :
    exceptOk (simulate_score σ color move policy b) = false :=
  simulate_score_not_ok σ hσ color move policy b

/-- Witness for C4: a concrete call on the empty 3 by 3 board. -/
theorem simulate_score_no_complete_batch_witness :
    exceptOk (simulate_score id 2 3 "rule_based" bd3) = false :=
  simulate_score_no_complete_batch bd3 id 2 3 "rule_based" (fun l => List.Perm.refl l)

/-- Claim C5 (code bug support).  The claim describes the score
`(stats[current_player] + 0.5 * stats[EMPTY]) / 10`, inverted for the
opposing colour, returned by `simulate_score`.  That expression is
unreachable: the concrete call below (empty 2 by 2 board, legal move 0)
faults with a type error before any score is formed, with move 0 still
played on the faulting board. -/
theorem simulate_score_formula_unreachable :
    simulate_score id 1 0 "random" bd2
      = Except.error ("TypeError: invalid move value",
          { size := 2, cells := [1, 0, 0, 0], current_player := 2, history := [0] }) := by
  decide

/-- Counterexample for C6.  The claim says every error while executing a
command is recovered at the dispatcher boundary and the session continues.
The line `boardsize x` passes parsing and arity checking, its handler raises
`ValueError`, and `get_cmd` re-raises it (`raise e`): the outcome is fatal,
not a recovered `? `-response. -/
theorem handler_exception_fatal_cex :
    get_cmd gomokuCommandsFrag gomokuArgmap "boardsize x" = CmdOutcome.fatal "ValueError" := by
  decide

/-- Claim C6 (amended).  Parse/arity failures and unknown commands are
recovered at the dispatcher boundary with a `? message` response and the
session continues in Idle; but an exception raised inside a dispatched
command handler is re-raised by `get_cmd` after logging and propagates out of
the dispatcher, terminating the session; `exit()` in the quit handler
(a `SystemExit`, which `except Exception` does not catch) closes the
session. -/
theorem get_cmd_error_paths (commands : List (String × (List String → HandlerResult)))
    (argmap : List (String × Nat × String)) (line name : String) (args : List String)
    (hp : parseLine line = some (name, args)) :
    (∀ msg, has_arg_error argmap name args.length = some msg →
       get_cmd commands argmap line = CmdOutcome.argError msg) ∧
    (has_arg_error argmap name args.length = none → lookupTable commands name = none →
       get_cmd commands argmap line = CmdOutcome.unknown) ∧
    (∀ h msg, has_arg_error argmap name args.length = none →
       lookupTable commands name = some h → h args = HandlerResult.raised msg →
       get_cmd commands argmap line = CmdOutcome.fatal msg) ∧
    (∀ h, has_arg_error argmap name args.length = none →
       lookupTable commands name = some h → h args = HandlerResult.exited →
       get_cmd commands argmap line = CmdOutcome.closed) := by
  refine ⟨?_, ?_, ?_, ?_⟩
  · intro msg hmsg
    simp [get_cmd, hp, hmsg]
  · intro h1 h2
    simp [get_cmd, hp, h1, h2]
  · intro h msg h1 h2 h3
    simp [get_cmd, hp, h1, h2, h3]
  · intro h h1 h2 h3
    simp [get_cmd, hp, h1, h2, h3]

/-- Witness for C6 (amended): the line `policy` is dispatched with no
arguments (the arity table has no entry under the registered name `policy`),
the handler raises `IndexError` on `args[0]` and the dispatcher re-raises
it. -/
theorem get_cmd_error_paths_witness :
    parseLine "policy" = some ("policy", []) ∧
    get_cmd gomokuCommandsFrag gomokuArgmap "policy" = CmdOutcome.fatal "IndexError" :=
  ⟨by decide,
   (get_cmd_error_paths gomokuCommandsFrag gomokuArgmap "policy" "policy" [] (by decide)).2.2.1
     policy_cmd "IndexError" (by decide) (by rfl) (by rfl)⟩

/-- Claim C7 (code bug support).  The claim states that `genmove` returns a
move lying in the legal moves of the input board.  `genmove` never returns a
move at all: with no candidates the `max` of the empty padded score list
faults, and with at least one candidate the first `simulate_score` call
faults, so the asserted legality is never exercised. -/
theorem genmove_never_returns_move (b : Board) (σ : List PyVal → List PyVal)
    (policy : String) (color : Nat) (hσ : ∀ l : List PyVal, (σ l).Perm l) :
    exceptOk (genmove σ policy color b) = false := by
  unfold genmove
  rcases hmv : (get_rule_moves policy b).2 with _ | ⟨m, rest⟩
  · simp [hmv, genmoveLoop, exceptOk]
  · have hne := simulate_score_not_ok σ hσ color m policy b
    cases hres : simulate_score σ color m policy b with
    | error e => simp [hmv, genmoveLoop, hres, exceptOk]
    | ok v =>
      rw [hres] at hne
      simp [exceptOk] at hne

/-- Witness for C7: the concrete call on the empty 2 by 2 board. -/
theorem genmove_never_returns_move_witness :
    exceptOk (genmove id "random" 1 bd2) = false :=
  genmove_never_returns_move bd2 id "random" 1 (fun l => List.Perm.refl l)

/-- Claim C8.  The player flip performed by `block_win` is transactional: the
board returned by `block_win` is exactly the input board (in this embedding
the nested win detection is a total function, matching the source, where no
exception can escape `win_wrapper`), and the returned list is the win scan of
the flipped board. -/
theorem block_win_restores_current_player (b : Board) :
    (block_win b).2 = b ∧
    (block_win b).1 = win_wrapper { b with current_player := opponent b.current_player } := by
  constructor
  · show ({ b with current_player := opponent (opponent b.current_player) } : Board) = b
    rw [opponent_opponent]
  · rfl

/-- Claim C9.  Argument counts are validated against the arity table before
dispatch: whenever the table has an entry for the parsed command name whose
required count differs from the parsed argument count, the outcome is the
table's usage error response, and it is independent of the command table —
no handler is invoked. -/
theorem arity_checked_before_dispatch
    (commands commands' : List (String × (List String → HandlerResult)))
    (line name : String) (args : List String) (msg : String)
    (hp : parseLine line = some (name, args))
    (ha : has_arg_error gomokuArgmap name args.length = some msg) :
    get_cmd commands gomokuArgmap line = CmdOutcome.argError msg ∧
    get_cmd commands gomokuArgmap line = get_cmd commands' gomokuArgmap line := by
  constructor
  · simp [get_cmd, hp, ha]
  · simp [get_cmd, hp, ha]

/-- Witness for C9: `boardsize 2 3` has two arguments against a required
count of one; the usage message is emitted and no handler runs. -/
theorem arity_checked_before_dispatch_witness :
    parseLine "boardsize 2 3" = some ("boardsize", ["2", "3"]) ∧
    get_cmd gomokuCommandsFrag gomokuArgmap "boardsize 2 3"
      = CmdOutcome.argError "Usage: boardsize INT" :=
  ⟨by decide,
   (arity_checked_before_dispatch gomokuCommandsFrag [] "boardsize 2 3" "boardsize"
      ["2", "3"] "Usage: boardsize INT" (by decide) (by decide)).1⟩

/-- Claim C10.  On a well-formed board (cells in {0, 1, 2}, player to move 1
or 2), every move in a rule-based tactical candidate set — the win scan, the
block-win scan, and both open-four scans — addresses a cell that is Empty at
the moment of evaluation. -/
theorem tactical_moves_are_empty_cells (b : Board) (m : Nat)
    (hcells : ∀ c ∈ b.cells, c = 0 ∨ c = 1 ∨ c = 2)
    (hp : b.current_player = 1 ∨ b.current_player = 2)
    (h : m ∈ win_wrapper b ∨ m ∈ (block_win b).1 ∨ m ∈ open_four b ∨ m ∈ block_open_four b) :
    get_color b m = 0 := by
  rcases h with h | h | h | h
  · exact mem_win_wrapper_empty h
  · exact @mem_win_wrapper_empty { b with current_player := opponent b.current_player } m h
  · exact mem_open_four_empty hp hcells h
  · exact mem_block_open_four_empty hp hcells h

/-- Witness for C10: point 4 of the Black win row `1 1 1 1 0` is in the win
scan and is empty. -/
theorem tactical_moves_are_empty_cells_witness :
    (bdW.current_player = 1 ∨ bdW.current_player = 2) ∧
    (4 ∈ win_wrapper bdW ∨ 4 ∈ (block_win bdW).1 ∨ 4 ∈ open_four bdW ∨
      4 ∈ block_open_four bdW) ∧
    get_color bdW 4 = 0 :=
  ⟨Or.inl rfl, Or.inl (by decide),
   tactical_moves_are_empty_cells bdW 4 (by decide) (Or.inl rfl) (Or.inl (by decide))⟩

end Gomoku
